import Mathlib

/-!
# Booking service (`main.go`): shallow embedding and verified properties

The service keeps room bookings in a MongoDB collection and serves four
operations over gin: create, list, get and delete.  The Go code is embedded as
pure functions that pass the gin request context and the collection explicitly.

* `Context`, `ResponseWriter`: the part of `gin.Context` the handlers touch
  (path parameter, bound body, status line, body, attached errors, abort flag).
* `Collection`: the collection as a sequence of records in store order, with an
  optional fault that makes every round trip fail.  A record is kept as BSON
  holds it: times are datetimes in whole milliseconds (`bsonRoundTrip`).
* `SliceStable`: `sort.SliceStable`.
* `ObjectIDFromHex`, `ObjectID.Hex`: the identifier codec of the bson package.
-/

namespace GoFinalTest

/-! ## Bytes, identifiers and the hexadecimal codec -/

/-- One byte of a Go string or byte array. -/
abbrev Byte := Fin 256

/-- Go `error` values as the handlers distinguish them: the sentinel
`mongo.ErrNoDocuments`, compared with `==`, and every other error. -/
inductive Err where
  | ErrNoDocuments
  | other (msg : String)
deriving DecidableEq, Repr

/-- The `primitive.ObjectID` type, `[12]byte`. -/
structure ObjectID where
  bytes : List Byte
  size : bytes.length = 12
deriving DecidableEq

/-- The zero identifier `primitive.NilObjectID`. -/
def NilObjectID : ObjectID := ⟨List.replicate 12 0, rfl⟩

/-- The method `ObjectID.IsZero`: `id == NilObjectID`. -/
def ObjectID.IsZero (id : ObjectID) : Bool := decide (id = NilObjectID)

/-- Value of one hexadecimal digit (`encoding/hex`, `reverseHexTable`):
`0-9`, `a-f`, `A-F`; every other byte is invalid. -/
def fromHexChar (c : Byte) : Option Nat :=
  if 48 ≤ c.val ∧ c.val ≤ 57 then some (c.val - 48)
  else if 97 ≤ c.val ∧ c.val ≤ 102 then some (c.val - 97 + 10)
  else if 65 ≤ c.val ∧ c.val ≤ 70 then some (c.val - 65 + 10)
  else none

/-- The byte `(a << 4) | b` built from two digit values. -/
def joinNibbles (a b : Nat) : Byte := ⟨(a * 16 + b) % 256, Nat.mod_lt _ (by decide)⟩

/-- The function `hex.Decode`: consumes the source two bytes at a time; an
invalid digit or an odd length is an error (`none`). -/
def hexDecode : List Byte → Option (List Byte)
  | [] => some []
  | [_] => none
  | p :: q :: rest =>
    match fromHexChar p, fromHexChar q with
    | some a, some b =>
      match hexDecode rest with
      | some bs => some (joinNibbles a b :: bs)
      | none => none
    | _, _ => none

/-- One character of `hextable = "0123456789abcdef"`. -/
def hexDigit (n : Nat) : Byte :=
  if n < 10 then ⟨(48 + n) % 256, Nat.mod_lt _ (by decide)⟩
  else ⟨(87 + n) % 256, Nat.mod_lt _ (by decide)⟩

/-- The function `hex.Encode`: two lowercase digits per byte. -/
def hexEncode : List Byte → List Byte
  | [] => []
  | b :: bs => hexDigit (b.val / 16) :: hexDigit (b.val % 16) :: hexEncode bs

/-- The method `ObjectID.Hex`. -/
def ObjectID.Hex (id : ObjectID) : List Byte := hexEncode id.bytes

/-- The function `primitive.ObjectIDFromHex`: a string whose length is not 24,
or that holds a byte that is not a hexadecimal digit, yields `NilObjectID`
together with an error. -/
def ObjectIDFromHex (s : List Byte) : ObjectID × Option Err :=
  if s.length ≠ 24 then (NilObjectID, some (.other "the provided hex string is not a valid ObjectID"))
  else
    match hexDecode s with
    | none => (NilObjectID, some (.other "encoding/hex: invalid byte"))
    | some bs =>
      if h : bs.length = 12 then (⟨bs, h⟩, none)
      else (NilObjectID, some (.other "encoding/hex: invalid byte"))

/-- A byte is one of `0-9`, `a-f`, `A-F`. -/
def isHexDigit (c : Byte) : Bool := (fromHexChar c).isSome

/-- A path identifier is a syntactically valid object id: 24 hexadecimal
characters. -/
def validObjectIDHex (s : List Byte) : Prop := s.length = 24 ∧ ∀ c ∈ s, isHexDigit c = true

/-! ## The data model -/

/-- A `time.Time`, reduced to the instant it denotes, in nanoseconds counted
from the zero `Time`; `Before` compares instants only. -/
structure Time where
  instant : Int
deriving DecidableEq, Repr

/-- A `primitive.DateTime`: the BSON datetime, in whole milliseconds. -/
abbrev DateTime := Int

/-- The function `primitive.NewDateTimeFromTime`, which the driver uses to
marshal a `time.Time`: `t.Unix()*1e3 + t.Nanosecond()/1e6`, the whole
milliseconds of the instant; what lies below a millisecond is dropped.  (The
zero `Time` and the Unix epoch are a whole number of seconds apart, so the
rounding is the same from either origin.) -/
def NewDateTimeFromTime (t : Time) : DateTime := t.instant / 1000000

/-- The method `DateTime.Time`, which the driver uses to decode a datetime. -/
def DateTime.Time (d : DateTime) : GoFinalTest.Time := ⟨d * 1000000⟩

/-- The method `Time.Before`. -/
def Time.Before (t u : Time) : Bool := decide (t.instant < u.instant)

/-- The `Booking` struct.  `ID` is tagged `bson:"_id,omitempty"` and `json:"id"`:
it is bound from a request body like the other fields, and a zero `ID` is left out
of the document sent to the store. -/
structure Booking where
  ID : ObjectID
  Name : String
  Room : String
  Start : Time
  End : Time
deriving DecidableEq

/-- The function `newBooking`: a pointer to the zero `Booking`. -/
def newBooking : Booking := ⟨NilObjectID, "", "", ⟨0⟩, ⟨0⟩⟩

/-- What a `Booking` is once marshalled to BSON and decoded again: the id and
the strings are kept, `Start` and `End` pass through a BSON datetime. -/
def bsonRoundTrip (doc : Booking) : Booking :=
  { doc with Start := DateTime.Time (NewDateTimeFromTime doc.Start),
             End := DateTime.Time (NewDateTimeFromTime doc.End) }

/-! ## `sort.SliceStable` -/

/-- Inner loop of the library's `insertionSort`: the element at position `i`
is swapped leftwards while it is less than its left neighbour.  The sorted
part to its left is passed nearest neighbour first, and so is the result. -/
def sinkLeft {α : Type} (less : α → α → Bool) (x : α) : List α → List α
  | [] => [x]
  | y :: ys => if less x y then y :: sinkLeft less x ys else x :: y :: ys

/-- Outer loop of the library's `insertionSort`: `done` is the part already
sorted (nearest neighbour first), `rest` the elements still to be visited. -/
def insertionSort {α : Type} (less : α → α → Bool) : List α → List α → List α
  | done, [] => done.reverse
  | done, x :: rest => insertionSort less (sinkLeft less x done) rest

/-- The function `sort.SliceStable`.  The library sorts blocks of 20 elements
with `insertionSort` and merges them with `symMerge`; a stable sort has one
possible result, the one the insertion sort computes on the whole slice. -/
def SliceStable {α : Type} (less : α → α → Bool) (data : List α) : List α :=
  insertionSort less [] data

/-! ## The gin request context -/

/-- What a handler hands to `c.JSON`: a `*Booking` (`none` for `nil`), a
`[]*Booking` (`none` for `nil`) or a string. -/
inductive Payload where
  | booking (b : Option Booking)
  | bookings (l : Option (List Booking))
  | text (s : String)
deriving DecidableEq

/-- The gin `responseWriter`: `status` is the pending status code (200 at the
start), `written` tells whether the header has been written, `sent` is the
status line handed to `net/http` at that moment, `body` the payloads written. -/
structure ResponseWriter where
  status : Nat
  written : Bool
  sent : Option Nat
  body : List Payload
deriving DecidableEq

/-- The method `responseWriter.WriteHeader`: records the status code; once
the header is written the code is no longer replaced (older gin releases
still overwrite the pending code then, which changes nothing in `sent`). -/
def ResponseWriter.WriteHeader (w : ResponseWriter) (code : Nat) : ResponseWriter :=
  if 0 < code ∧ w.status ≠ code then
    if w.written then w else { w with status := code }
  else w

/-- The method `responseWriter.WriteHeaderNow`: sends the status line unless
that has been done already. -/
def ResponseWriter.WriteHeaderNow (w : ResponseWriter) : ResponseWriter :=
  if w.written then w else { w with written := true, sent := some w.status }

/-- The method `responseWriter.Write`: forces the header, then appends. -/
def ResponseWriter.Write (w : ResponseWriter) (data : Payload) : ResponseWriter :=
  { w.WriteHeaderNow with body := w.WriteHeaderNow.body ++ [data] }

/-- The part of `gin.Context` the handlers use.  `param` is `c.Param("id")`,
`bound` is what decoding the request body into a zero `Booking` yields (the
decoded value or the decoder's error), `errors` is `c.Errors`, `aborted` is
`c.IsAborted()`. -/
structure Context where
  param : List Byte
  bound : Except String Booking
  writer : ResponseWriter
  errors : List Err
  aborted : Bool

/-- A context as the router hands it to the first handler. -/
def Context.request (param : List Byte) (bound : Except String Booking) : Context :=
  ⟨param, bound, ⟨200, false, none, []⟩, [], false⟩

/-- The method `Context.Status`. -/
def Context.Status (c : Context) (code : Nat) : Context :=
  { c with writer := c.writer.WriteHeader code }

/-- The method `Context.AbortWithStatus`: `Status`, `WriteHeaderNow`, `Abort`. -/
def Context.AbortWithStatus (c : Context) (code : Nat) : Context :=
  { c with writer := (c.writer.WriteHeader code).WriteHeaderNow, aborted := true }

/-- The method `Context.Error`: appends to `c.Errors`. -/
def Context.Error (c : Context) (err : Err) : Context :=
  { c with errors := c.errors ++ [err] }

/-- The method `Context.AbortWithError`: `AbortWithStatus` followed by `Error`. -/
def Context.AbortWithError (c : Context) (code : Nat) (err : Err) : Context :=
  (c.AbortWithStatus code).Error err

/-- The helper `bodyAllowedForStatus` of gin. -/
def bodyAllowedForStatus (status : Nat) : Bool :=
  if 100 ≤ status ∧ status ≤ 199 then false
  else if status = 204 then false
  else if status = 304 then false
  else true

/-- The method `Context.JSON` (`Context.Render` with the JSON renderer): sets
the status, then writes the encoded value, which forces the header. -/
def Context.JSON (c : Context) (code : Nat) (obj : Payload) : Context :=
  if bodyAllowedForStatus code then
    { c with writer := (c.writer.WriteHeader code).Write obj }
  else
    { c with writer := (c.writer.WriteHeader code).WriteHeaderNow }

/-- The method `Context.Bind` (`MustBindWith`): decodes the body into `obj`;
on failure gin itself aborts the request with status 400 and the error, and
returns the error. -/
def Context.Bind (c : Context) (obj : Booking) : Context × Booking × Option Err :=
  match c.bound with
  | .error msg => (c.AbortWithError 400 (.other msg), obj, some (.other msg))
  | .ok b => (c, b, none)

/-! ## The collection -/

/-- The `mongo.Collection` behind the handlers: the records in store order,
each as it decodes into a `Booking`, and a fault (lost connection, cancelled context) that, when present, makes
every round trip fail with that message. -/
structure Collection where
  docs : List Booking
  fault : Option String
deriving DecidableEq

/-- A `mongo.Cursor`: for each document still to be visited the outcome of
decoding it, and the error `cur.Err()` reports once the cursor is exhausted. -/
structure Cursor where
  batch : List (Except Err Booking)
  err : Option Err

/-- The method `Collection.InsertOne` on a `Booking`.  A zero `ID` is omitted
from the document (`omitempty`), so the driver adds the identifier `gen` that
`primitive.NewObjectID` produces; a non-zero `ID` is sent as `_id`.  The
document is marshalled to BSON, so the record kept is `bsonRoundTrip` of it.
The store rejects an `_id` it already holds.  The result carries `InsertedID`. -/
def Collection.InsertOne (coll : Collection) (gen : ObjectID) (doc : Booking) :
    Except Err (Collection × ObjectID) :=
  match coll.fault with
  | some msg => .error (.other msg)
  | none =>
    let id := if doc.ID.IsZero then gen else doc.ID
    if coll.docs.any (fun d => decide (d.ID = id)) then .error (.other "E11000 duplicate key error")
    else .ok ({ coll with docs := coll.docs ++ [bsonRoundTrip { doc with ID := id }] }, id)

/-- The method `Collection.Find` with the empty filter. -/
def Collection.Find (coll : Collection) : Except Err Cursor :=
  match coll.fault with
  | some msg => .error (.other msg)
  | none => .ok ⟨coll.docs.map .ok, none⟩

/-- The call `coll.FindOne(ctx, bson.D{{"_id", id}}).Decode(..)`: the first
record with that `_id`, or `ErrNoDocuments` when there is none. -/
def Collection.FindOne (coll : Collection) (id : ObjectID) : Except Err Booking :=
  match coll.fault with
  | some msg => .error (.other msg)
  | none =>
    match coll.docs.find? (fun d => decide (d.ID = id)) with
    | some d => .ok d
    | none => .error .ErrNoDocuments

/-- The method `Collection.DeleteOne` with filter `_id = id`: removes the first
matching record and reports `DeletedCount`; matching nothing is not an error. -/
def Collection.DeleteOne (coll : Collection) (id : ObjectID) : Except Err (Collection × Nat) :=
  match coll.fault with
  | some msg => .error (.other msg)
  | none =>
    if coll.docs.any (fun d => decide (d.ID = id)) then
      .ok ({ coll with docs := coll.docs.eraseP (fun d => decide (d.ID = id)) }, 1)
    else .ok (coll, 0)

/-! ## The handlers of `main.go` -/

/-- The type `func(context.Context, *gin.Context, *mongo.Collection) error`:
a handler returns the context and the collection as it leaves them, and its
error. -/
abbrev Handler := Context → Collection → Context × Collection × Option Err

/-- The function `wrapError`. -/
def wrapError (coll : Collection) (h : Handler) (c : Context) : Context × Collection :=
  match h c coll with
  | (c1, coll1, some err) =>
    if err = Err.ErrNoDocuments then (c1.AbortWithError 404 err, coll1)
    else (c1.AbortWithError 500 err, coll1)
  | (c1, coll1, none) => (c1, coll1)

/-- The function `createBooking`; `gen` is the identifier `NewObjectID` yields
during this call.  The `*Booking` result is `none` for `nil`. -/
def createBooking (gen : ObjectID) (c : Context) (coll : Collection) :
    Context × Collection × Option Booking × Option Err :=
  match c.Bind newBooking with
  | (c1, _, some err) => (c1.AbortWithError 500 err, coll, none, some err)
  | (c1, book, none) =>
    match coll.InsertOne gen book with
    | .error err => (c1, coll, none, some err)
    | .ok (coll1, insertedID) => (c1, coll1, some { book with ID := insertedID }, none)

/-- The function `createHandler`. -/
def createHandler (gen : ObjectID) : Handler := fun c coll =>
  match createBooking gen c coll with
  | (c1, coll1, _, some err) => (c1, coll1, some err)
  | (c1, coll1, todo, none) => (c1.JSON 200 (.booking todo), coll1, none)

/-- The loop `for cur.Next(ctx)` of `listBookings`: decodes each document and
appends it; a decoding error ends the function. -/
def listBookingsLoop : List (Except Err Booking) → List Booking → Except Err (List Booking)
  | [], bookingList => .ok bookingList
  | .error err :: _, _ => .error err
  | .ok book :: rest, bookingList => listBookingsLoop rest (bookingList ++ [book])

/-- The function `listBookings`.  The slice result is `none` for `nil`. -/
def listBookings (coll : Collection) : Option (List Booking) × Option Err :=
  match coll.Find with
  | .error err => (none, some err)
  | .ok cur =>
    match listBookingsLoop cur.batch [] with
    | .error err => (none, some err)
    | .ok bookingList =>
      match cur.err with
      | some err => (none, some err)
      | none => (some (SliceStable (fun x y => x.Start.Before y.Start) bookingList), none)

/-- The function `listBookingHandler`. -/
def listBookingHandler : Handler := fun c coll =>
  match listBookings coll with
  | (_, some err) => (c, coll, some err)
  | (todos, none) => (c.JSON 200 (.bookings todos), coll, none)

/-- The function `getBooking`. -/
def getBooking (c : Context) (coll : Collection) : Context × Booking × Option Err :=
  let id := (ObjectIDFromHex c.param).1
  let book := newBooking
  match coll.FindOne id with
  | .error err =>
    if err = Err.ErrNoDocuments then (c.AbortWithError 404 err, book, none)
    else (c.AbortWithError 500 err, book, none)
  | .ok found => (c, found, none)

/-- The function `getBookingHandler`. -/
def getBookingHandler : Handler := fun c coll =>
  match getBooking c coll with
  | (c1, _, some err) => (c1, coll, some err)
  | (c1, book, none) => (c1.JSON 200 (.booking (some book)), coll, none)

/-- The function `deleteBooking`: the `DeleteResult` is discarded, only the
error is looked at. -/
def deleteBooking (c : Context) (coll : Collection) : Context × Collection × Option Err :=
  let id := (ObjectIDFromHex c.param).1
  match coll.DeleteOne id with
  | .error err =>
    if err = Err.ErrNoDocuments then (c.AbortWithError 404 err, coll, some err)
    else (c.AbortWithError 500 err, coll, some err)
  | .ok (coll1, _) => (c, coll1, none)

/-- The function `deleteBookingHandler`. -/
def deleteBookingHandler : Handler := fun c coll =>
  match deleteBooking c coll with
  | (c1, coll1, some err) => (c1, coll1, some err)
  | (c1, coll1, none) => (c1.JSON 200 (.text ""), coll1, none)

/-- The status line the client receives, if one was sent. -/
def Context.sentStatus (c : Context) : Option Nat := c.writer.sent

/-! ## Sample requests and records -/

/-- An identifier whose last byte is `n`, the others zero. -/
def sampleID (n : Nat) : ObjectID :=
  ⟨List.replicate 11 0 ++ [⟨n % 256, Nat.mod_lt _ (by decide)⟩], by simp⟩

/-- A create payload without an id. -/
def alice : Booking := ⟨NilObjectID, "Alice", "101", ⟨36000000000000⟩, ⟨39600000000000⟩⟩

/-- A create payload that carries an id of its own. -/
def mallory : Booking := ⟨sampleID 7, "Mallory", "101", ⟨36000000000000⟩, ⟨39600000000000⟩⟩

/-- A create payload whose start, 1.5 milliseconds after the zero `Time`, is
not a whole number of milliseconds. -/
def erin : Booking := ⟨NilObjectID, "Erin", "102", ⟨1500000⟩, ⟨60000000000⟩⟩

/-- Three stored bookings; the first two start at the same instant. -/
def stored1 : Booking := ⟨sampleID 1, "Bob", "101", ⟨500000000⟩, ⟨600000000⟩⟩

/-- See `stored1`. -/
def stored2 : Booking := ⟨sampleID 2, "Carol", "102", ⟨500000000⟩, ⟨700000000⟩⟩

/-- See `stored1`. -/
def stored3 : Booking := ⟨sampleID 3, "Dave", "101", ⟨100000000⟩, ⟨200000000⟩⟩

/-- The path identifier `xyz`, not a valid object id. -/
def malformedID : List Byte := [120, 121, 122]

/-- A handler that only reports the given error. -/
def failWith (err : Err) : Handler := fun c coll => (c, coll, some err)

/-! ## Facts about the sort -/

theorem sinkLeft_perm {α : Type} (less : α → α → Bool) (x : α) (l : List α) :
    (sinkLeft less x l).Perm (x :: l) := by
  induction l with
  | nil => exact List.Perm.refl _
  | cons y ys ih =>
    unfold sinkLeft
    split
    · exact ((List.Perm.cons y ih).trans (List.Perm.swap x y ys))
    · exact List.Perm.refl _

theorem insertionSort_perm {α : Type} (less : α → α → Bool) (done rest : List α) :
    (insertionSort less done rest).Perm (done.reverse ++ rest) := by
  induction rest generalizing done with
  | nil => simp [insertionSort]
  | cons x rest ih =>
    unfold insertionSort
    refine (ih (sinkLeft less x done)).trans ?_
    have h1 : (sinkLeft less x done).reverse.Perm (x :: done) :=
      (List.reverse_perm _).trans (sinkLeft_perm less x done)
    have h2 : (done.reverse ++ x :: rest).Perm ((x :: done) ++ rest) := by
      have h3 : (done.reverse ++ [x]).Perm (x :: done) := by
        have h4 := List.reverse_perm (x :: done)
        simpa using h4
      have h5 : done.reverse ++ x :: rest = (done.reverse ++ [x]) ++ rest := by simp
      rw [h5]
      exact List.Perm.append_right rest h3
    exact (List.Perm.append_right rest h1).trans h2.symm

theorem sinkLeft_pairwise {α : Type} (less : α → α → Bool)
    (hasymm : ∀ a b, less a b = true → less b a = false)
    (hneg : ∀ a b c, less a b = false → less b c = false → less a c = false)
    (x : α) (l : List α) (hl : l.Pairwise (fun a b => less a b = false)) :
    (sinkLeft less x l).Pairwise (fun a b => less a b = false) := by
  induction l with
  | nil => simp [sinkLeft]
  | cons y ys ih =>
    rw [List.pairwise_cons] at hl
    unfold sinkLeft
    split
    · rename_i hxy
      rw [List.pairwise_cons]
      refine ⟨?_, ih hl.2⟩
      intro z hz
      have hz2 : z ∈ x :: ys := (sinkLeft_perm less x ys).subset hz
      rcases List.mem_cons.mp hz2 with h | h
      · subst h
        exact hasymm _ _ hxy
      · exact hl.1 z h
    · rename_i hxy
      have hxy2 : less x y = false := by simpa using hxy
      rw [List.pairwise_cons]
      refine ⟨?_, List.pairwise_cons.mpr hl⟩
      intro z hz
      rcases List.mem_cons.mp hz with h | h
      · subst h
        exact hxy2
      · exact hneg _ _ _ hxy2 (hl.1 z h)

theorem insertionSort_pairwise {α : Type} (less : α → α → Bool)
    (hasymm : ∀ a b, less a b = true → less b a = false)
    (hneg : ∀ a b c, less a b = false → less b c = false → less a c = false)
    (done rest : List α) (hd : done.Pairwise (fun a b => less a b = false)) :
    (insertionSort less done rest).Pairwise (fun a b => less b a = false) := by
  induction rest generalizing done with
  | nil =>
    unfold insertionSort
    rw [List.pairwise_reverse]
    exact hd
  | cons x rest ih =>
    unfold insertionSort
    exact ih _ (sinkLeft_pairwise less hasymm hneg x done hd)

theorem sinkLeft_filter {α : Type} (less : α → α → Bool) (p : α → Bool)
    (hp : ∀ a b, p a = true → p b = true → less a b = false) (x : α) (l : List α) :
    (sinkLeft less x l).filter p = (x :: l).filter p := by
  induction l with
  | nil => simp [sinkLeft]
  | cons y ys ih =>
    unfold sinkLeft
    split
    · rename_i hxy
      rw [List.filter_cons, ih]
      by_cases hx : p x = true
      · have hy : p y = false := by
          by_contra hy
          have hy2 : p y = true := by simpa using hy
          have := hp x y hx hy2
          rw [this] at hxy
          exact Bool.false_ne_true hxy
        simp [List.filter_cons, hx, hy]
      · simp [List.filter_cons, hx]
    · rfl

theorem insertionSort_filter {α : Type} (less : α → α → Bool) (p : α → Bool)
    (hp : ∀ a b, p a = true → p b = true → less a b = false) (done rest : List α) :
    (insertionSort less done rest).filter p = (done.reverse ++ rest).filter p := by
  induction rest generalizing done with
  | nil => simp [insertionSort]
  | cons x rest ih =>
    unfold insertionSort
    rw [ih, List.filter_append, List.filter_reverse, sinkLeft_filter less p hp,
      List.filter_append, List.filter_reverse]
    by_cases hx : p x = true
    · simp [List.filter_cons, hx]
    · simp [List.filter_cons, hx]

theorem before_asymm (a b : Booking) (h : a.Start.Before b.Start = true) :
    b.Start.Before a.Start = false := by
  simp only [Time.Before, decide_eq_true_eq, decide_eq_false_iff_not] at *
  omega

theorem before_negtrans (a b c : Booking) (h1 : a.Start.Before b.Start = false)
    (h2 : b.Start.Before c.Start = false) : a.Start.Before c.Start = false := by
  simp only [Time.Before, decide_eq_false_iff_not] at *
  omega

theorem listBookingsLoop_ok (docs acc : List Booking) :
    listBookingsLoop (docs.map Except.ok) acc = Except.ok (acc ++ docs) := by
  induction docs generalizing acc with
  | nil => simp [listBookingsLoop]
  | cons d ds ih => simp [listBookingsLoop, ih]

theorem listBookings_ok (docs : List Booking) :
    listBookings ⟨docs, none⟩ =
      (some (SliceStable (fun x y => x.Start.Before y.Start) docs), none) := by
  simp [listBookings, Collection.Find, listBookingsLoop_ok]

/-! ## Listing -/

/-- C1: whatever sequence of bookings the store returns from find-all without
error, `listBookings` succeeds and its result is sorted non-decreasing by
`Start`: for adjacent elements `x`, `y` of the result, `y.Start` is not before
`x.Start` (and the same holds for every pair in result order). -/
theorem listBookings_sorted_by_start (docs : List Booking) :
    ∃ res, listBookings ⟨docs, none⟩ = (some res, none) ∧
      List.Chain' (fun x y => y.Start.Before x.Start = false) res ∧
      List.Pairwise (fun x y => y.Start.Before x.Start = false) res := by
  refine ⟨_, listBookings_ok docs, ?_⟩
  have h : List.Pairwise (fun x y => y.Start.Before x.Start = false)
      (SliceStable (fun (x y : Booking) => x.Start.Before y.Start) docs) :=
    insertionSort_pairwise (fun (x y : Booking) => x.Start.Before y.Start)
      before_asymm before_negtrans [] docs List.Pairwise.nil
  exact ⟨List.Pairwise.chain' h, h⟩

/-- C2: whatever sequence of bookings the store returns from find-all without
error, the result of `listBookings` is a permutation of it: every booking
occurs in the result as often as in the store, the lengths agree, and for an
empty store the result is the empty slice, not `nil`. -/
theorem listBookings_permutation (docs : List Booking) :
    ∃ res, listBookings ⟨docs, none⟩ = (some res, none) ∧
      res.Perm docs ∧ (∀ b, res.count b = docs.count b) ∧
      res.length = docs.length ∧ (docs = [] → res = []) := by
  refine ⟨_, listBookings_ok docs, ?_⟩
  have h : (SliceStable (fun (x y : Booking) => x.Start.Before y.Start) docs).Perm docs := by
    simpa [SliceStable] using
      insertionSort_perm (fun (x y : Booking) => x.Start.Before y.Start) [] docs
  refine ⟨h, fun b => h.count_eq b, h.length_eq, ?_⟩
  intro hd
  subst hd
  rfl

/-- Witness for C2: on a store without records `listBookings` returns the empty
slice, not `nil`. -/
theorem listBookings_permutation_witness : listBookings ⟨[], none⟩ = (some [], none) := by
  obtain ⟨res, h, -, -, -, he⟩ := listBookings_permutation []
  rw [h, he rfl]

/-- C3: the sort in `listBookings` is stable: the bookings with a given start
appear in the result in the order the store returned them; in particular, if
`a` precedes `b` in store order and their starts are equal, `a` precedes `b`
in the result. -/
theorem listBookings_stable (docs : List Booking) :
    ∃ res, listBookings ⟨docs, none⟩ = (some res, none) ∧
      (∀ t : Time, res.filter (fun d => decide (d.Start = t)) =
        docs.filter (fun d => decide (d.Start = t))) ∧
      (∀ a b : Booking, a.Start = b.Start → List.Sublist [a, b] docs →
        List.Sublist [a, b] res) := by
  refine ⟨_, listBookings_ok docs, ?_⟩
  have hf : ∀ t : Time,
      (SliceStable (fun (x y : Booking) => x.Start.Before y.Start) docs).filter
        (fun d => decide (d.Start = t)) = docs.filter (fun d => decide (d.Start = t)) := by
    intro t
    have h := insertionSort_filter (fun (x y : Booking) => x.Start.Before y.Start)
      (fun d => decide (d.Start = t))
      (by
        intro a b ha hb
        simp only [decide_eq_true_eq] at ha hb
        simp [Time.Before, ha, hb]) [] docs
    simpa [SliceStable] using h
  refine ⟨hf, ?_⟩
  intro a b hab hsub
  have h1 := hsub.filter (fun d => decide (d.Start = a.Start))
  rw [← hf a.Start] at h1
  have h2 : [a, b].filter (fun d => decide (d.Start = a.Start)) = [a, b] := by
    simp [List.filter_cons, hab]
  rw [h2] at h1
  exact h1.trans (List.filter_sublist _)

/-- Witness for C3: `stored1` and `stored2` start at the same instant and stay
in store order behind the earlier `stored3`. -/
theorem listBookings_stable_witness :
    listBookings ⟨[stored1, stored2, stored3], none⟩ = (some [stored3, stored1, stored2], none) ∧
    List.Sublist [stored1, stored2] [stored3, stored1, stored2] := by
  obtain ⟨res, h, -, hp⟩ := listBookings_stable [stored1, stored2, stored3]
  have h0 : listBookings ⟨[stored1, stored2, stored3], none⟩
      = (some [stored3, stored1, stored2], none) := rfl
  have hres : res = [stored3, stored1, stored2] := by
    rw [h0] at h
    simp only [Prod.mk.injEq, Option.some.injEq, and_true] at h
    exact h.symm
  refine ⟨h0, ?_⟩
  rw [← hres]
  exact hp stored1 stored2 rfl
    (List.Sublist.cons₂ _ (List.Sublist.cons₂ _ (List.Sublist.cons _ List.Sublist.slnil)))

/-! ## The error translator -/

theorem abortWithError_sent (c : Context) (code : Nat) (err : Err) (hcode : 0 < code) :
    (c.AbortWithError code err).writer.sent =
      if c.writer.written then c.writer.sent else some code := by
  unfold Context.AbortWithError Context.Error Context.AbortWithStatus
    ResponseWriter.WriteHeaderNow ResponseWriter.WriteHeader
  by_cases hw : c.writer.written = true
  · simp [hw]
  · by_cases hs : c.writer.status = code
    · simp [hw, hs]
    · simp [hw, hs, hcode]

theorem abortWithError_errors (c : Context) (code : Nat) (err : Err) :
    (c.AbortWithError code err).errors = c.errors ++ [err] ∧
      (c.AbortWithError code err).aborted = true := by
  simp [Context.AbortWithError, Context.Error, Context.AbortWithStatus]

/-- C4: `wrapError` classifies every handler outcome in one of three ways.
With a nil error it leaves the context and the collection as the handler left
them.  With `ErrNoDocuments` it aborts with 404 and attaches that error; with
any other error it aborts with 500 and attaches that error.  Aborting marks
the context aborted, appends the error to `c.Errors`, and makes the status
line the given code unless the handler had already sent one. -/
theorem wrapError_classification (coll : Collection) (h : Handler) (c : Context) :
    (∀ c1 coll1, h c coll = (c1, coll1, none) → wrapError coll h c = (c1, coll1)) ∧
    (∀ c1 coll1, h c coll = (c1, coll1, some Err.ErrNoDocuments) →
      wrapError coll h c = (c1.AbortWithError 404 Err.ErrNoDocuments, coll1) ∧
      (wrapError coll h c).1.aborted = true ∧
      (wrapError coll h c).1.errors = c1.errors ++ [Err.ErrNoDocuments] ∧
      (c1.writer.written = false → (wrapError coll h c).1.sentStatus = some 404)) ∧
    (∀ c1 coll1 err, err ≠ Err.ErrNoDocuments → h c coll = (c1, coll1, some err) →
      wrapError coll h c = (c1.AbortWithError 500 err, coll1) ∧
      (wrapError coll h c).1.aborted = true ∧
      (wrapError coll h c).1.errors = c1.errors ++ [err] ∧
      (c1.writer.written = false → (wrapError coll h c).1.sentStatus = some 500)) := by
  refine ⟨?_, ?_, ?_⟩
  · intro c1 coll1 hh
    simp [wrapError, hh]
  · intro c1 coll1 hh
    have hw : wrapError coll h c = (c1.AbortWithError 404 Err.ErrNoDocuments, coll1) := by
      simp [wrapError, hh]
    rw [hw]
    refine ⟨rfl, (abortWithError_errors _ _ _).2, (abortWithError_errors _ _ _).1, ?_⟩
    intro hnot
    simp [Context.sentStatus, abortWithError_sent, hnot]
  · intro c1 coll1 err hne hh
    have hw : wrapError coll h c = (c1.AbortWithError 500 err, coll1) := by
      simp [wrapError, hh, hne]
    rw [hw]
    refine ⟨rfl, (abortWithError_errors _ _ _).2, (abortWithError_errors _ _ _).1, ?_⟩
    intro hnot
    simp [Context.sentStatus, abortWithError_sent, hnot]

/-- Witness for C4: a handler reporting `ErrNoDocuments` on a fresh request
ends with status 404, one reporting another error with status 500. -/
theorem wrapError_classification_witness :
    (wrapError ⟨[], none⟩ (failWith Err.ErrNoDocuments)
        (Context.request [] (.ok alice))).1.sentStatus = some 404 ∧
    (wrapError ⟨[], none⟩ (failWith (Err.other "connection reset"))
        (Context.request [] (.ok alice))).1.sentStatus = some 500 :=
  ⟨((wrapError_classification ⟨[], none⟩ (failWith Err.ErrNoDocuments)
      (Context.request [] (.ok alice))).2.1 _ _ rfl).2.2.2 rfl,
   ((wrapError_classification ⟨[], none⟩ (failWith (Err.other "connection reset"))
      (Context.request [] (.ok alice))).2.2 _ _ _ (by decide) rfl).2.2.2 rfl⟩

/-! ## The identifier codec -/

theorem fromHexChar_hexDigit (n : Nat) (hn : n < 16) : fromHexChar (hexDigit n) = some n := by
  interval_cases n <;> rfl

theorem joinNibbles_split (b : Byte) : joinNibbles (b.val / 16) (b.val % 16) = b := by
  apply Fin.ext
  simp only [joinNibbles]
  omega

theorem hexDecode_hexEncode (bs : List Byte) : hexDecode (hexEncode bs) = some bs := by
  induction bs with
  | nil => rfl
  | cons b bs ih =>
    have h1 : b.val / 16 < 16 := by omega
    have h2 : b.val % 16 < 16 := by omega
    simp only [hexEncode, hexDecode, fromHexChar_hexDigit _ h1, fromHexChar_hexDigit _ h2, ih,
      joinNibbles_split]

theorem hexEncode_length (bs : List Byte) : (hexEncode bs).length = 2 * bs.length := by
  induction bs with
  | nil => rfl
  | cons b bs ih => simp only [hexEncode, List.length_cons, ih]; omega

theorem objectIDFromHex_hex (id : ObjectID) : ObjectIDFromHex id.Hex = (id, none) := by
  have hl : id.Hex.length = 24 := by
    simp only [ObjectID.Hex, hexEncode_length, id.size]
  unfold ObjectIDFromHex
  simp only [hl, ne_eq, not_true_eq_false, if_false]
  simp only [ObjectID.Hex, hexDecode_hexEncode, id.size, dite_true]

theorem hexDecode_some_digits :
    ∀ (s bs : List Byte), hexDecode s = some bs → ∀ c ∈ s, isHexDigit c = true
  | [], _, _ => by simp
  | [_], _, h => by simp [hexDecode] at h
  | p :: q :: rest, bs, h => by
    unfold hexDecode at h
    cases hp : fromHexChar p with
    | none => simp [hp] at h
    | some a =>
      cases hq : fromHexChar q with
      | none => simp [hp, hq] at h
      | some b =>
        cases hr : hexDecode rest with
        | none => simp [hp, hq, hr] at h
        | some tl =>
          intro c hc
          rcases List.mem_cons.mp hc with h1 | h1
          · subst h1; simp [isHexDigit, hp]
          · rcases List.mem_cons.mp h1 with h2 | h2
            · subst h2; simp [isHexDigit, hq]
            · exact hexDecode_some_digits rest tl hr c h2

theorem objectIDFromHex_malformed (s : List Byte) (hbad : ¬ validObjectIDHex s) :
    (ObjectIDFromHex s).1 = NilObjectID ∧ (ObjectIDFromHex s).2 ≠ none := by
  unfold ObjectIDFromHex
  by_cases hl : s.length = 24
  · simp only [hl, ne_eq, not_true_eq_false, if_false]
    cases hd : hexDecode s with
    | none => simp
    | some bs =>
      exact absurd ⟨hl, hexDecode_some_digits s bs hd⟩ hbad
  · simp [hl]

/-! ## Delete -/

/-- C5 (the code departs from the claim): whatever the store holds and whatever
the path identifier is, `deleteBooking` on a healthy store returns a nil error
and the request ends with status 200, no error attached and an empty string as
body; deleting from a store without a matching record removes nothing and still
answers 200, and deleting the id of `stored1` twice answers 200 both times. -/
theorem deleteBooking_answers_200_without_match (docs : List Booking) (param : List Byte)
    (bound : Except String Booking) :
    (deleteBooking (Context.request param bound) ⟨docs, none⟩).2.2 = none ∧
    (wrapError ⟨docs, none⟩ deleteBookingHandler (Context.request param bound)).1.sentStatus
      = some 200 ∧
    (wrapError ⟨docs, none⟩ deleteBookingHandler (Context.request param bound)).1.errors = [] ∧
    (wrapError ⟨docs, none⟩ deleteBookingHandler (Context.request param bound)).1.writer.body
      = [Payload.text ""] ∧
    Collection.DeleteOne ⟨[], none⟩ (ObjectIDFromHex param).1 = .ok (⟨[], none⟩, 0) ∧
    (wrapError ⟨[stored1], none⟩ deleteBookingHandler
      (Context.request stored1.ID.Hex bound)).2 = ⟨[], none⟩ ∧
    (wrapError ⟨[], none⟩ deleteBookingHandler
      (Context.request stored1.ID.Hex bound)).1.sentStatus = some 200 := by
  have key : ∀ (ds : List Booking) (pm : List Byte),
      ∃ coll1, deleteBooking (Context.request pm bound) ⟨ds, none⟩ =
        (Context.request pm bound, coll1, none) := by
    intro ds pm
    unfold deleteBooking Collection.DeleteOne
    by_cases h : (ds.any fun d => decide (d.ID = (ObjectIDFromHex pm).1)) = true
    · refine ⟨⟨ds.eraseP fun d => decide (d.ID = (ObjectIDFromHex pm).1), none⟩, ?_⟩
      simp only [Context.request, h, if_true]
    · refine ⟨⟨ds, none⟩, ?_⟩
      simp only [Context.request, h]
      rfl
  have fin : ∀ (ds : List Booking) (pm : List Byte),
      (wrapError ⟨ds, none⟩ deleteBookingHandler (Context.request pm bound)).1 =
        (Context.request pm bound).JSON 200 (Payload.text "") := by
    intro ds pm
    obtain ⟨coll1, h1⟩ := key ds pm
    simp only [wrapError, deleteBookingHandler, h1]
  obtain ⟨coll1, h1⟩ := key docs param
  refine ⟨by rw [h1], by rw [fin]; rfl, by rw [fin]; rfl, by rw [fin]; rfl, rfl, ?_, by rw [fin]; rfl⟩
  simp only [wrapError, deleteBookingHandler, deleteBooking, objectIDFromHex_hex]
  rfl

/-! ## Get -/

theorem findOne_no_match (coll : Collection) (id : ObjectID) (hok : coll.fault = none)
    (hno : ∀ d ∈ coll.docs, d.ID ≠ id) : coll.FindOne id = .error Err.ErrNoDocuments := by
  have hf : coll.docs.find? (fun d => decide (d.ID = id)) = none := by
    rw [List.find?_eq_none]
    intro d hd
    simpa using hno d hd
  simp [Collection.FindOne, hok, hf]

theorem getBooking_no_match (c : Context) (coll : Collection)
    (h : coll.FindOne (ObjectIDFromHex c.param).1 = .error Err.ErrNoDocuments) :
    getBooking c coll = (c.AbortWithError 404 Err.ErrNoDocuments, newBooking, none) := by
  simp [getBooking, h]

theorem getBookingHandler_no_match (c : Context) (coll : Collection)
    (h : coll.FindOne (ObjectIDFromHex c.param).1 = .error Err.ErrNoDocuments) :
    wrapError coll getBookingHandler c =
      ((c.AbortWithError 404 Err.ErrNoDocuments).JSON 200 (Payload.booking (some newBooking)),
        coll) := by
  simp [wrapError, getBookingHandler, getBooking_no_match c coll h]

/-- C6 (the code departs from the claim): on a store that holds no record,
for every path identifier, `getBooking` aborts the request with 404 but returns
a nil error together with the zero `Booking`; `getBookingHandler` therefore
goes on to `c.JSON(200, book)` and writes the zero `Booking` as the body, under
the status line 404 that was already sent. -/
theorem getBooking_no_record_returns_nil_error (param : List Byte)
    (bound : Except String Booking) :
    (getBooking (Context.request param bound) ⟨[], none⟩).2 = (newBooking, none) ∧
    (getBookingHandler (Context.request param bound) ⟨[], none⟩).2.2 = none ∧
    (wrapError ⟨[], none⟩ getBookingHandler (Context.request param bound)).1.writer.body
      = [Payload.booking (some newBooking)] ∧
    (wrapError ⟨[], none⟩ getBookingHandler (Context.request param bound)).1.sentStatus
      = some 404 ∧
    (wrapError ⟨[], none⟩ getBookingHandler (Context.request param bound)).1.errors
      = [Err.ErrNoDocuments] := by
  have h : (⟨[], none⟩ : Collection).FindOne (ObjectIDFromHex (Context.request param bound).param).1
      = .error Err.ErrNoDocuments := rfl
  have hg := getBooking_no_match (Context.request param bound) ⟨[], none⟩ h
  have hw := getBookingHandler_no_match (Context.request param bound) ⟨[], none⟩ h
  refine ⟨by rw [hg], by simp only [getBookingHandler, hg], by rw [hw]; rfl, by rw [hw]; rfl,
    by rw [hw]; rfl⟩

/-- C7: for every path identifier that is not a valid object id (24
hexadecimal characters), `ObjectIDFromHex` reports an error, which `getBooking`
discards, and yields the zero identifier, with which the store is queried.  On
a healthy store that holds no record under the zero identifier the lookup
reports no document and the request ends with status 404, aborted, with
`ErrNoDocuments` as the only attached error (no parse error, no 500); the
store is unchanged. -/
theorem getBooking_malformed_id_is_not_found (param : List Byte)
    (bound : Except String Booking) (coll : Collection)
    (hbad : ¬ validObjectIDHex param) (hok : coll.fault = none)
    (hzero : ∀ d ∈ coll.docs, d.ID ≠ NilObjectID) :
    (ObjectIDFromHex param).1 = NilObjectID ∧ (ObjectIDFromHex param).2 ≠ none ∧
    coll.FindOne (ObjectIDFromHex param).1 = coll.FindOne NilObjectID ∧
    coll.FindOne NilObjectID = .error Err.ErrNoDocuments ∧
    (wrapError coll getBookingHandler (Context.request param bound)).1.sentStatus = some 404 ∧
    (wrapError coll getBookingHandler (Context.request param bound)).1.errors
      = [Err.ErrNoDocuments] ∧
    (wrapError coll getBookingHandler (Context.request param bound)).1.aborted = true ∧
    (wrapError coll getBookingHandler (Context.request param bound)).2 = coll := by
  obtain ⟨hnil, herr⟩ := objectIDFromHex_malformed param hbad
  have hfind := findOne_no_match coll NilObjectID hok hzero
  have h : coll.FindOne (ObjectIDFromHex (Context.request param bound).param).1
      = .error Err.ErrNoDocuments := by
    simpa [Context.request, hnil] using hfind
  have hw := getBookingHandler_no_match (Context.request param bound) coll h
  refine ⟨hnil, herr, by rw [hnil], hfind, by rw [hw]; rfl, by rw [hw]; rfl, by rw [hw]; rfl,
    by rw [hw]⟩

/-- Witness for C7: the path identifier `xyz` on a store holding `stored1`. -/
theorem getBooking_malformed_id_is_not_found_witness :
    ¬ validObjectIDHex malformedID ∧
    (wrapError ⟨[stored1], none⟩ getBookingHandler
      (Context.request malformedID (.error "EOF"))).1.sentStatus = some 404 :=
  ⟨fun h => absurd h.1 (by decide),
   (getBooking_malformed_id_is_not_found malformedID (.error "EOF") ⟨[stored1], none⟩
      (fun h => absurd h.1 (by decide)) rfl (by decide)).2.2.2.2.1⟩

/-! ## Create -/

theorem createBooking_success (gen : ObjectID) (c c1 : Context) (coll coll1 : Collection)
    (b book : Booking) (hb : c.bound = .ok b)
    (hres : createBooking gen c coll = (c1, coll1, some book, none)) :
    c1 = c ∧ coll.fault = none ∧
    book = { b with ID := if b.ID = NilObjectID then gen else b.ID } ∧
    (∀ d ∈ coll.docs, d.ID ≠ book.ID) ∧
    coll1 = ⟨coll.docs ++ [bsonRoundTrip book], none⟩ := by
  have hins : ∀ (id : ObjectID) (cl : Collection), coll.InsertOne gen b = .ok (cl, id) →
      coll.fault = none ∧ id = (if b.ID = NilObjectID then gen else b.ID) ∧
      (∀ d ∈ coll.docs, d.ID ≠ id) ∧
      cl = ⟨coll.docs ++ [bsonRoundTrip { b with ID := id }], none⟩ := by
    intro id cl h
    unfold Collection.InsertOne at h
    cases hf : coll.fault with
    | some msg => simp [hf] at h
    | none =>
      have hid : (if b.ID.IsZero = true then gen else b.ID) =
          (if b.ID = NilObjectID then gen else b.ID) := by
        by_cases hz : b.ID = NilObjectID <;> simp [ObjectID.IsZero, hz]
      rw [hf] at h
      dsimp only at h
      rw [hid] at h
      generalize (if b.ID = NilObjectID then gen else b.ID) = k at h
      by_cases hany : (coll.docs.any fun d => decide (d.ID = k)) = true
      · rw [if_pos hany] at h
        cases h
      · rw [if_neg hany] at h
        simp only [Except.ok.injEq, Prod.mk.injEq] at h
        obtain ⟨h2, h3⟩ := h
        refine ⟨rfl, h3.symm, ?_, ?_⟩
        · intro d hd hEq
          apply hany
          rw [List.any_eq_true]
          exact ⟨d, hd, by simpa [h3] using hEq⟩
        · rw [← h2, ← h3]
  unfold createBooking Context.Bind at hres
  rw [hb] at hres
  simp only at hres
  cases hi : coll.InsertOne gen b with
  | error e => simp [hi] at hres
  | ok r =>
    obtain ⟨cl, id⟩ := r
    simp only [hi, Prod.mk.injEq, Option.some.injEq, and_true] at hres
    obtain ⟨h1, h2, h3⟩ := hres
    obtain ⟨hf, hid, hfresh, hcl⟩ := hins id cl hi
    have hbook : book = { b with ID := if b.ID = NilObjectID then gen else b.ID } := by
      rw [← h3, hid]
    have hbid : book.ID = id := by rw [← h3]
    refine ⟨h1.symm, hf, hbook, ?_, ?_⟩
    · rw [hbid]
      exact hfresh
    · rw [← h2, hcl, ← h3]

theorem createBooking_keeps_nonzero_ids (gen : ObjectID) (c c1 : Context)
    (coll coll1 : Collection) (b book : Booking) (hb : c.bound = .ok b)
    (hres : createBooking gen c coll = (c1, coll1, some book, none))
    (hgen : gen ≠ NilObjectID) (hinv : ∀ d ∈ coll.docs, d.ID ≠ NilObjectID) :
    ∀ d ∈ coll1.docs, d.ID ≠ NilObjectID := by
  obtain ⟨-, -, hbook, -, hcoll⟩ := createBooking_success gen c c1 coll coll1 b book hb hres
  intro d hd
  rw [hcoll] at hd
  rcases List.mem_append.mp hd with h | h
  · exact hinv d h
  · rw [List.mem_singleton] at h
    rw [h, hbook]
    by_cases hz : b.ID = NilObjectID
    · simp [bsonRoundTrip, hz, hgen]
    · simp [bsonRoundTrip, hz]

/-- C8, counterexample: a payload that carries the id `sampleID 7`, while the
driver would generate `sampleID 9`, is persisted and returned under the
client-supplied id, not under the generated one. -/
theorem createBooking_keeps_client_id :
    (createBooking (sampleID 9) (Context.request [] (.ok mallory)) ⟨[], none⟩).2.2
      = (some mallory, none) ∧
    (createBooking (sampleID 9) (Context.request [] (.ok mallory)) ⟨[], none⟩).2.1
      = ⟨[mallory], none⟩ ∧
    mallory.ID = sampleID 7 ∧ mallory.ID ≠ sampleID 9 :=
  ⟨rfl, rfl, rfl, by decide⟩

/-- C8, amended: whenever `createBooking` succeeds on a payload `b`, the
Booking it returns is `b` with the id the store reports as `InsertedID`, and
the record appended to the store is that Booking as BSON holds it, under the
same id.  The id is the generated one exactly when the payload carries no id
(the zero id); a non-zero id of the payload is kept as the identifier of the
stored record. -/
theorem createBooking_assigned_id (gen : ObjectID) (c c1 : Context) (coll coll1 : Collection)
    (b book : Booking) (hb : c.bound = .ok b)
    (hres : createBooking gen c coll = (c1, coll1, some book, none)) :
    (b.ID = NilObjectID → book.ID = gen) ∧ (b.ID ≠ NilObjectID → book.ID = b.ID) ∧
    book.Name = b.Name ∧ book.Room = b.Room ∧ book.Start = b.Start ∧ book.End = b.End ∧
    coll1.docs = coll.docs ++ [bsonRoundTrip book] ∧ (bsonRoundTrip book).ID = book.ID := by
  obtain ⟨-, -, hbook, -, hcoll⟩ := createBooking_success gen c c1 coll coll1 b book hb hres
  refine ⟨?_, ?_, by rw [hbook], by rw [hbook], by rw [hbook], by rw [hbook], by rw [hcoll],
    rfl⟩
  · intro hz
    rw [hbook]
    simp [hz]
  · intro hz
    rw [hbook]
    simp [hz]

/-- Witness for C8, amended: the payload `alice`, which carries no id, is stored
under the generated id `sampleID 9`. -/
theorem createBooking_assigned_id_witness :
    (createBooking (sampleID 9) (Context.request [] (.ok alice)) ⟨[], none⟩).2.2
      = (some { alice with ID := sampleID 9 }, none) ∧
    ({ alice with ID := sampleID 9 } : Booking).ID = sampleID 9 :=
  ⟨rfl, (createBooking_assigned_id (sampleID 9) (Context.request [] (.ok alice))
      (Context.request [] (.ok alice)) ⟨[], none⟩ ⟨[{ alice with ID := sampleID 9 }], none⟩
      alice { alice with ID := sampleID 9 } rfl rfl).1 rfl⟩

/-- C9, counterexample: `erin` starts 1.5 milliseconds after the zero `Time`.
`createBooking` succeeds and returns her Booking under the id `sampleID 9`, and
`getBooking` with that id returns a Booking whose start is 1 millisecond after
the zero `Time`, not the start of the payload. -/
theorem create_then_get_drops_submilliseconds :
    (createBooking (sampleID 9) (Context.request [] (.ok erin)) ⟨[], none⟩).2.2
      = (some { erin with ID := sampleID 9 }, none) ∧
    (getBooking (Context.request (sampleID 9).Hex (.error "EOF"))
      (createBooking (sampleID 9) (Context.request [] (.ok erin)) ⟨[], none⟩).2.1).2
      = ({ erin with ID := sampleID 9, Start := ⟨1000000⟩ }, none) ∧
    erin.Start = ⟨1500000⟩ ∧
    ¬ ((getBooking (Context.request (sampleID 9).Hex (.error "EOF"))
      (createBooking (sampleID 9) (Context.request [] (.ok erin)) ⟨[], none⟩).2.1).2.1.Start
        = erin.Start) :=
  ⟨rfl, rfl, rfl, by decide⟩

/-- C9, amended: round trip.  If `createBooking` succeeds on a payload `b` and
returns the Booking `book`, then `getBooking` on the resulting store, asked for
the hexadecimal form of `book.ID`, returns without error and without touching
the response a Booking whose name and room are those of `b`, whose id is
`book.ID`, and whose start and end are those of `b` cut down to whole
milliseconds; a start or end of `b` that is a whole number of milliseconds
comes back unchanged. -/
theorem create_then_get_round_trip (gen : ObjectID) (c c1 c2 : Context)
    (coll coll1 : Collection) (b book : Booking) (hb : c.bound = .ok b)
    (hres : createBooking gen c coll = (c1, coll1, some book, none))
    (hp : c2.param = book.ID.Hex) :
    ∃ got, getBooking c2 coll1 = (c2, got, none) ∧
      got.Name = b.Name ∧ got.Room = b.Room ∧ got.ID = book.ID ∧
      got.Start = DateTime.Time (NewDateTimeFromTime b.Start) ∧
      got.End = DateTime.Time (NewDateTimeFromTime b.End) ∧
      got.Start.instant ≤ b.Start.instant ∧ b.Start.instant < got.Start.instant + 1000000 ∧
      got.End.instant ≤ b.End.instant ∧ b.End.instant < got.End.instant + 1000000 ∧
      (b.Start.instant % 1000000 = 0 → got.Start = b.Start) ∧
      (b.End.instant % 1000000 = 0 → got.End = b.End) := by
  obtain ⟨-, -, hbook, hfresh, hcoll⟩ := createBooking_success gen c c1 coll coll1 b book hb hres
  have hfind : coll1.FindOne book.ID = .ok (bsonRoundTrip book) := by
    have h1 : coll.docs.find? (fun d => decide (d.ID = book.ID)) = none := by
      rw [List.find?_eq_none]
      intro d hd
      simpa using hfresh d hd
    rw [hcoll]
    simp [Collection.FindOne, List.find?_append, h1, List.find?_cons, bsonRoundTrip]
  have hcut : ∀ t : Time,
      (DateTime.Time (NewDateTimeFromTime t)).instant ≤ t.instant ∧
      t.instant < (DateTime.Time (NewDateTimeFromTime t)).instant + 1000000 ∧
      (t.instant % 1000000 = 0 → DateTime.Time (NewDateTimeFromTime t) = t) := by
    intro t
    cases t with
    | mk i =>
      simp only [DateTime.Time, NewDateTimeFromTime, Time.mk.injEq]
      refine ⟨?_, ?_, ?_⟩ <;> omega
  have hS : (bsonRoundTrip book).Start = DateTime.Time (NewDateTimeFromTime b.Start) := by
    rw [hbook]
    rfl
  have hE : (bsonRoundTrip book).End = DateTime.Time (NewDateTimeFromTime b.End) := by
    rw [hbook]
    rfl
  refine ⟨bsonRoundTrip book, ?_, by rw [hbook]; rfl, by rw [hbook]; rfl, rfl, hS, hE, ?_, ?_, ?_,
    ?_, ?_, ?_⟩
  · simp [getBooking, hp, objectIDFromHex_hex, hfind]
  · rw [hS]; exact (hcut b.Start).1
  · rw [hS]; exact (hcut b.Start).2.1
  · rw [hE]; exact (hcut b.End).1
  · rw [hE]; exact (hcut b.End).2.1
  · rw [hS]; exact (hcut b.Start).2.2
  · rw [hE]; exact (hcut b.End).2.2

/-- Witness for C9, amended: `alice`, whose start and end are whole seconds, is
created on a store holding `stored1` and read back unchanged under the
generated id. -/
theorem create_then_get_round_trip_witness :
    alice.Start.instant % 1000000 = 0 ∧ alice.End.instant % 1000000 = 0 ∧
    ∃ got, getBooking (Context.request (sampleID 9).Hex (.error "EOF"))
        ⟨[stored1, { alice with ID := sampleID 9 }], none⟩
        = (Context.request (sampleID 9).Hex (.error "EOF"), got, none) ∧
      got.Name = alice.Name ∧ got.Room = alice.Room ∧ got.ID = sampleID 9 ∧
      got.Start = alice.Start ∧ got.End = alice.End := by
  obtain ⟨got, h1, h2, h3, h4, -, -, -, -, -, -, h5, h6⟩ :=
    create_then_get_round_trip (sampleID 9) (Context.request [] (.ok alice))
      (Context.request [] (.ok alice)) (Context.request (sampleID 9).Hex (.error "EOF"))
      ⟨[stored1], none⟩ ⟨[stored1, { alice with ID := sampleID 9 }], none⟩
      alice { alice with ID := sampleID 9 } rfl rfl rfl
  exact ⟨by decide, by decide, got, h1, h2, h3, h4, h5 (by decide), h6 (by decide)⟩

/-- C10 (the code departs from the claim): when the payload fails to bind,
`createBooking` returns the bind error and nil without calling `InsertOne`, the
store is unchanged, and `wrapError` takes its 500 branch; but `c.Bind` has
already aborted the request with status 400, so the status line sent is 400
and the two later aborts with 500 only attach the error again. -/
theorem createBooking_bind_failure_answers_400 (gen : ObjectID) (param : List Byte)
    (msg : String) (coll : Collection) :
    (createBooking gen (Context.request param (.error msg)) coll).2
      = (coll, none, some (Err.other msg)) ∧
    wrapError coll (createHandler gen) (Context.request param (.error msg)) =
      ((((Context.request param (.error msg)).AbortWithError 400 (Err.other msg)).AbortWithError
        500 (Err.other msg)).AbortWithError 500 (Err.other msg), coll) ∧
    (wrapError coll (createHandler gen) (Context.request param (.error msg))).1.sentStatus
      = some 400 ∧
    (wrapError coll (createHandler gen) (Context.request param (.error msg))).1.errors
      = [Err.other msg, Err.other msg, Err.other msg] ∧
    (wrapError coll (createHandler gen) (Context.request param (.error msg))).1.writer.body
      = [] := by
  have hc : createBooking gen (Context.request param (.error msg)) coll =
      (((Context.request param (.error msg)).AbortWithError 400 (Err.other msg)).AbortWithError
        500 (Err.other msg), coll, none, some (Err.other msg)) := rfl
  have hw : wrapError coll (createHandler gen) (Context.request param (.error msg)) =
      ((((Context.request param (.error msg)).AbortWithError 400 (Err.other msg)).AbortWithError
        500 (Err.other msg)).AbortWithError 500 (Err.other msg), coll) := by
    simp [wrapError, createHandler, hc]
  refine ⟨by rw [hc], hw, by rw [hw]; rfl, by rw [hw]; rfl, by rw [hw]; rfl⟩

end GoFinalTest
